import Mathlib

/-!
Verification of the spaced-repetition scheduling core of the
german-phrase-game repository.

The TypeScript source is embedded shallowly:
* JavaScript numbers are modelled as `Int`; every quantity the scheduler
  handles is integer-valued, and the only non-integer intermediate values
  are quotients that feed directly into `Math.round`, which is modelled
  exactly by `jsRoundDiv` (see `jsRoundDiv_eq_floor`);
* timestamps are `Int` milliseconds, with the clock (`new Date()`) passed
  explicitly as a `now : Int` parameter;
* database tables are lists of records; `select ... limit 1` is `List.find?`,
  `update ... where` is `List.map` over the rows, `insert` is an append;
* `throw` is `Except.error`.
-/

namespace GermanPhraseGame

/-- JavaScript `Math.round (a / b)` for integers `a` and positive `b`,
computed exactly: `Math.round x = ⌊x + 1/2⌋` (halves round toward `+∞`),
and `⌊a/b + 1/2⌋ = ⌊(2a+b)/(2b)⌋`.  See `jsRoundDiv_eq_floor`. -/
def jsRoundDiv (a b : Int) : Int := (2 * a + b) / (2 * b)

/-- Word status enum of the `userProgress.status` column. -/
inductive WordStatus where
  | new
  | learning
  | mastered
deriving Repr, DecidableEq

/-- `SRSState` from `src/server/learning/srs.ts`. -/
structure SRSState where
  interval : Int
  easeFactor : Int
  repetitions : Int
  nextReviewAt : Int
deriving Repr, DecidableEq

/-- The SM-2 ease-factor delta of `srs.ts` line 43, already scaled by 1000:
`(0.1 - (5 - q) * (0.08 + (5 - q) * 0.02)) * 1000`.  For integer `q` the
floating-point expression is integer-valued, so the scaled integer form is
exact (`easeDelta_eq_spec_formula`). -/
def easeDelta (quality : Int) : Int :=
  100 - (5 - quality) * (80 + (5 - quality) * 20)

/-- `calculateNextReview` from `src/server/learning/srs.ts`.  The interval
branch `Math.round(state.interval * (newEaseFactor / 1000))` is
`jsRoundDiv (state.interval * newEaseFactor) 1000`, exact because
`i * (e/1000) = (i*e)/1000` in real arithmetic.  The source's
`nextReviewAt.setDate(getDate() + newInterval)` calendar-day addition is
modelled as adding whole days of milliseconds; no claim concerns that
field. -/
def calculateNextReview (state : SRSState) (quality : Int) (now : Int) :
    Except String SRSState :=
  if quality < 0 ∨ quality > 5 then
    Except.error ("Quality must be between 0 and 5")
  else
    let raisedEF : Int := state.easeFactor + easeDelta quality
    let newEaseFactor : Int := if raisedEF < 1300 then 1300 else raisedEF
    let newRepetitions : Int := if quality < 3 then 0 else state.repetitions + 1
    let newInterval : Int :=
      if quality < 3 then 1
      else if newRepetitions = 1 then 1
      else if newRepetitions = 2 then 3
      else jsRoundDiv (state.interval * newEaseFactor) 1000
    Except.ok
      { interval := newInterval
        easeFactor := newEaseFactor
        repetitions := newRepetitions
        nextReviewAt := now + newInterval * 86400000 }

/-- `getWordStatus` from `src/server/learning/srs.ts`. -/
def getWordStatus (state : SRSState) : WordStatus :=
  if state.repetitions = 0 then WordStatus.new
  else if state.repetitions < 5 ∨ state.easeFactor < 2000 then WordStatus.learning
  else WordStatus.mastered

/-- `calculateMasteryPercentage` from `src/server/learning/srs.ts`:
`round(min(repetitions/10,1)*50 + min((easeFactor-1300)/1700,1)*50)`.
Both scores are kept scaled by 1700 so the arithmetic stays exact:
`min(r/10,1)*50 = min(5r,50)` and `min((e-1300)/1700,1)*50
= min(50(e-1300),85000)/1700`.  `masteryPercentage_eq_floor` proves the
model equal to the source's real-number formula. -/
def calculateMasteryPercentage (state : SRSState) : Int :=
  let repetitionScore : Int := 1700 * min (5 * state.repetitions) 50
  let easeFactorScore : Int := min (50 * (state.easeFactor - 1300)) 85000
  jsRoundDiv (repetitionScore + easeFactorScore) 1700

/-- A row of the `userProgress` table (`src/drizzle/schema.ts`); the field
defaults are the schema's column defaults. -/
structure ProgressRecord where
  id : String
  userId : String
  phraseId : String
  interval : Int := 1
  easeFactor : Int := 2500
  repetitions : Int := 0
  correctCount : Int := 0
  incorrectCount : Int := 0
  nextReviewAt : Int
  lastReviewedAt : Option Int := none
  status : WordStatus := WordStatus.new
  createdAt : Int := 0
  updatedAt : Int := 0
deriving Repr, DecidableEq

/-- The `select ... where userId = ... and phraseId = ... limit 1` lookup
used by `recordAnswer` (`src/unnamed/part_005`) and `completeDailyTask`
(`src/server/taskScheduler.ts`). -/
def findProgressByUserPhrase (db : List ProgressRecord) (userId phraseId : String) :
    Option ProgressRecord :=
  db.find? fun p => p.userId == userId && p.phraseId == phraseId

/-- `getWordsForReview` from `src/server/routers/learning.ts`: rows of the
user whose `nextReviewAt` has passed, `orderBy(desc(nextReviewAt))`,
`limit(20)`.  The join with the `phrases` table only attaches content and is
not modelled. -/
def getWordsForReview (db : List ProgressRecord) (userId : String) (now : Int) :
    List ProgressRecord :=
  ((db.filter fun p => p.userId == userId && decide (p.nextReviewAt ≤ now)).mergeSort
    fun a b => decide (b.nextReviewAt ≤ a.nextReviewAt)).take 20

/-- `submitReview` from `src/server/routers/learning.ts`: look the progress
record up by `(id, userId)`, run `calculateNextReview`, and write the new
state back.  Returns the table after the call together with the
result/error; on an error the table is returned unchanged, since the source
throws before reaching the update. -/
def submitReview (db : List ProgressRecord) (userId progressId : String) (quality now : Int) :
    List ProgressRecord × Except String (SRSState × Int × WordStatus) :=
  match db.find? fun p => p.id == progressId && p.userId == userId with
  | none => (db, Except.error ("Progress record not found"))
  | some p =>
    match calculateNextReview ⟨p.interval, p.easeFactor, p.repetitions, p.nextReviewAt⟩
        quality now with
    | Except.error e => (db, Except.error e)
    | Except.ok newState =>
      let newStatus := getWordStatus newState
      (db.map fun q =>
        if q.id == progressId then
          { q with
            interval := newState.interval
            easeFactor := newState.easeFactor
            repetitions := newState.repetitions
            nextReviewAt := newState.nextReviewAt
            status := newStatus
            lastReviewedAt := some now
            correctCount := if 3 ≤ quality then p.correctCount + 1 else p.correctCount
            incorrectCount := if quality < 3 then p.incorrectCount + 1 else p.incorrectCount
            updatedAt := now }
        else q,
      Except.ok (newState, calculateMasteryPercentage newState, newStatus))

/-- `recordAnswer` from `src/unnamed/part_005`: the simplified inline SM-2
path with fixed ease delta `+200` on a correct and `-100` on an incorrect
answer.  The generated row id (`Date.now` plus a random suffix) carries no
information the claims depend on and is modelled as a constant. -/
def recordAnswer (db : List ProgressRecord) (userId phraseId : String)
    (isCorrect : Bool) (now : Int) : List ProgressRecord :=
  match findProgressByUserPhrase db userId phraseId with
  | some p =>
    let repetitions : Int := if isCorrect then p.repetitions + 1 else 0
    let interval : Int :=
      if isCorrect then
        if p.repetitions + 1 = 1 then 1
        else if p.repetitions + 1 = 2 then 3
        else jsRoundDiv (p.interval * p.easeFactor) 1000
      else 1
    let easeFactor : Int :=
      if isCorrect then max 1300 (p.easeFactor + 100 * (5 - 3))
      else max 1300 (p.easeFactor + 100 * (2 - 3))
    let nextReviewAt : Int := now + interval * 86400000
    db.map fun q =>
      if q.id == p.id then
        { q with
          interval := interval
          easeFactor := easeFactor
          repetitions := repetitions
          correctCount := if isCorrect then p.correctCount + 1 else p.correctCount
          incorrectCount := if !isCorrect then p.incorrectCount + 1 else p.incorrectCount
          lastReviewedAt := some now
          nextReviewAt := nextReviewAt
          updatedAt := now }
      else q
  | none =>
    let repetitions : Int := if isCorrect then 1 else 0
    let interval : Int := 1
    let easeFactor : Int := if isCorrect then 2500 else 1300
    let nextReviewAt : Int := now + interval * 86400000
    db ++ [{ id := "progress_new"
             userId := userId
             phraseId := phraseId
             interval := interval
             easeFactor := easeFactor
             repetitions := repetitions
             correctCount := if isCorrect then 1 else 0
             incorrectCount := if !isCorrect then 1 else 0
             lastReviewedAt := some now
             nextReviewAt := nextReviewAt
             status := if isCorrect then WordStatus.learning else WordStatus.new
             createdAt := now
             updatedAt := now }]

/-- `true` exactly on `Except.ok`. -/
def exceptIsOk : Except String SRSState → Bool
  | Except.ok _ => true
  | Except.error _ => false

/-- A progress row due at time 1 (most overdue of the two). -/
def duePr1 : ProgressRecord := { id := "p1", userId := "u", phraseId := "w1", nextReviewAt := 1 }

/-- A progress row due at time 2 (least overdue of the two). -/
def duePr2 : ProgressRecord := { id := "p2", userId := "u", phraseId := "w2", nextReviewAt := 2 }

/-- `dailyTasks.taskType` enum. -/
inductive TaskType where
  | new
  | review_1
  | review_3
  | review_10
  | review_21
  | review_50
  | exam
deriving Repr, DecidableEq

/-- `dailyTasks.status` enum. -/
inductive TaskStatus where
  | pending
  | completed
  | skipped
deriving Repr, DecidableEq

/-- A row of the `dailyTasks` table (`src/drizzle/schema.ts`); the field
defaults are the schema's column defaults.  Generated row ids (timestamp
based in the source) carry no information the claims depend on and are
modelled as constants. -/
structure DailyTask where
  id : String
  userId : String
  phraseId : String
  scheduledDate : Int
  taskType : TaskType
  daysFromLearning : Int
  status : TaskStatus := TaskStatus.pending
  isCorrect : Option Int := none
  completedAt : Option Int := none
  timeSpentSeconds : Int := 0
  updatedAt : Int := 0
deriving Repr, DecidableEq

/-- The tables `completeDailyTask` touches. -/
structure SchedulerDb where
  tasks : List DailyTask
  progress : List ProgressRecord
deriving Repr, DecidableEq

/-- The `reviewSchedules` array of `scheduleNextReviews`. -/
def reviewSchedules : List (Int × TaskType) :=
  [(1, TaskType.review_1), (3, TaskType.review_3), (10, TaskType.review_10),
   (21, TaskType.review_21), (50, TaskType.review_50)]

/-- The five checkpoint task types. -/
def reviewTaskTypes : List TaskType :=
  [TaskType.review_1, TaskType.review_3, TaskType.review_10,
   TaskType.review_21, TaskType.review_50]

/-- Number of `dailyTasks` rows for a `(userId, phraseId, taskType)` key. -/
def countTasksFor (ts : List DailyTask) (u p : String) (ty : TaskType) : Nat :=
  ts.countP fun t => t.userId == u && t.phraseId == p && t.taskType == ty

/-- One iteration of the loop in `scheduleNextReviews`: check whether a task
with the key `(userId, phraseId, taskType)` already exists and insert it only
if not.  The source truncates `scheduledDate` to midnight; the truncation is
modelled as plain day arithmetic since no claim concerns that field. -/
def scheduleStep (userId phraseId : String) (now : Int) (acc : SchedulerDb)
    (sched : Int × TaskType) : SchedulerDb :=
  if acc.tasks.any fun t =>
      t.userId == userId && t.phraseId == phraseId && t.taskType == sched.2 then
    acc
  else
    { acc with
      tasks := acc.tasks ++ [{
        id := "task_sched"
        userId := userId
        phraseId := phraseId
        scheduledDate := now + sched.1 * 86400000
        taskType := sched.2
        daysFromLearning := sched.1 }] }

/-- `scheduleNextReviews` from `src/server/taskScheduler.ts`. -/
def scheduleNextReviews (db : SchedulerDb) (userId phraseId : String) (now : Int) :
    SchedulerDb :=
  reviewSchedules.foldl (scheduleStep userId phraseId now) db

/-- The `update dailyTasks ... where id = taskId` step of
`completeDailyTask`, applied to one row. -/
def markCompleted (taskId : String) (isCorrect : Bool) (timeSpentSeconds now : Int)
    (t : DailyTask) : DailyTask :=
  if t.id == taskId then
    { t with
      status := TaskStatus.completed
      completedAt := some now
      isCorrect := some (if isCorrect then 1 else 0)
      timeSpentSeconds := timeSpentSeconds
      updatedAt := now }
  else t

/-- `completeDailyTask` from `src/server/taskScheduler.ts`: mark the task
completed, bump the progress counters (creating the record if absent), and
on a correct answer schedule the five checkpoint reviews. -/
def completeDailyTask (db : SchedulerDb) (userId taskId phraseId : String)
    (isCorrect : Bool) (timeSpentSeconds now : Int) : SchedulerDb :=
  let db1 : SchedulerDb :=
    { db with tasks := db.tasks.map (markCompleted taskId isCorrect timeSpentSeconds now) }
  let db2 : SchedulerDb :=
    match findProgressByUserPhrase db1.progress userId phraseId with
    | none =>
      { db1 with
        progress := db1.progress ++ [{
          id := "progress_task"
          userId := userId
          phraseId := phraseId
          correctCount := if isCorrect then 1 else 0
          incorrectCount := if isCorrect then 0 else 1
          status := WordStatus.learning
          nextReviewAt := now + 86400000 }] }
    | some p =>
      { db1 with
        progress := db1.progress.map fun q =>
          if q.id == p.id then
            { q with
              correctCount := p.correctCount + (if isCorrect then 1 else 0)
              incorrectCount := p.incorrectCount + (if isCorrect then 0 else 1)
              repetitions := p.repetitions + 1
              lastReviewedAt := some now
              updatedAt := now }
          else q }
  if isCorrect then scheduleNextReviews db2 userId phraseId now else db2

/-- A sequence of `completeDailyTask` calls with `isCorrect = true` for one
`(user, phrase)`; each call carries its own `(taskId, timeSpent, now)`. -/
def completeCorrectCalls (db : SchedulerDb) (userId phraseId : String)
    (calls : List (String × Int × Int)) : SchedulerDb :=
  calls.foldl (fun acc c => completeDailyTask acc userId c.1 phraseId true c.2.1 c.2.2) db

/-- A concrete progress row used by the C6 witness. -/
def exProgress6 : ProgressRecord :=
  { id := "pr1", userId := "u", phraseId := "w", interval := 7, easeFactor := 2400,
    repetitions := 3, correctCount := 4, incorrectCount := 2, nextReviewAt := 123,
    status := WordStatus.learning }

/-- A row of the `studySessions` table. -/
structure StudySession where
  id : String
  userId : String
  sessionDate : Int
  phrasesStudied : Int
  correctAnswers : Int
  incorrectAnswers : Int
  accuracy : Int
deriving Repr, DecidableEq

/-- `learningAnalytics.learningPace` enum. -/
inductive LearningPace where
  | slow
  | normal
  | fast
deriving Repr, DecidableEq

/-- A row of the `learningAnalytics` table; the field defaults are the
schema's column defaults (`optimalDailyLoad` defaults to 20). -/
structure AnalyticsRecord where
  id : String
  userId : String
  avgPhrasesPerDay : Int := 0
  optimalDailyLoad : Int := 20
  learningPace : LearningPace := LearningPace.normal
  avgRetention : Int := 0
  lastAnalyzedAt : Int := 0
  updatedAt : Int := 0
deriving Repr, DecidableEq

/-- The tables `updateLearningAnalytics` touches. -/
structure AnalyticsDb where
  sessions : List StudySession
  analytics : List AnalyticsRecord
deriving Repr, DecidableEq

/-- The trailing-30-day session window of `updateLearningAnalytics`
(`sessionDate >= thirtyDaysAgo` for the user).  The source's calendar
`setDate(-30)` is modelled as 30 whole days of milliseconds. -/
def windowSessions (db : AnalyticsDb) (userId : String) (now : Int) : List StudySession :=
  db.sessions.filter fun s => s.userId == userId && decide (now - 30 * 86400000 ≤ s.sessionDate)

/-- `updateLearningAnalytics` from `src/server/taskScheduler.ts`.
`Math.round(totalCorrect / totalPhrases * 100)` is
`jsRoundDiv (totalCorrect * 100) totalPhrases`; if `totalPhrases = 0` with a
nonempty window the source computes `NaN` while the model returns 0 — no
claim concerns that corner.  Note the update branch does not touch
`optimalDailyLoad`; only the insert branch sets it. -/
def updateLearningAnalytics (db : AnalyticsDb) (userId : String) (now : Int) : AnalyticsDb :=
  let sessions := windowSessions db userId now
  if sessions = [] then db
  else
    let totalPhrases := (sessions.map fun s => s.phrasesStudied).sum
    let totalCorrect := (sessions.map fun s => s.correctAnswers).sum
    let avgAccuracy := if sessions.length > 0 then jsRoundDiv (totalCorrect * 100) totalPhrases else 0
    let avgPhrasesPerDay := jsRoundDiv totalPhrases 30
    let pace1 := if avgPhrasesPerDay < 15 then LearningPace.slow else LearningPace.normal
    let pace2 := if avgPhrasesPerDay > 30 then LearningPace.fast else pace1
    if db.analytics.any fun a => a.userId == userId then
      { db with
        analytics := db.analytics.map fun a =>
          if a.userId == userId then
            { a with
              avgPhrasesPerDay := avgPhrasesPerDay
              avgRetention := avgAccuracy
              learningPace := pace2
              lastAnalyzedAt := now
              updatedAt := now }
          else a }
    else
      { db with
        analytics := db.analytics ++ [{
          id := "analytics_new"
          userId := userId
          avgPhrasesPerDay := avgPhrasesPerDay
          avgRetention := avgAccuracy
          learningPace := pace2
          optimalDailyLoad := avgPhrasesPerDay
          lastAnalyzedAt := now
          updatedAt := now }] }

/-- A study session of 60 phrases inside the 30-day window. -/
def exSession8 : StudySession :=
  { id := "s1", userId := "u", sessionDate := 0, phrasesStudied := 60,
    correctAnswers := 30, incorrectAnswers := 30, accuracy := 50 }

/-- A pre-existing analytics row with the default `optimalDailyLoad = 20`. -/
def exAnalytics8 : AnalyticsRecord := { id := "a1", userId := "u" }

/-- Analytics database with one session and one pre-existing analytics row. -/
def exDb8 : AnalyticsDb := ⟨[exSession8], [exAnalytics8]⟩

/-! ### Theorems -/

theorem jsRoundDiv_eq_floor (a b : Int) (hb : 0 < b) :
    jsRoundDiv a b = ⌊(a : ℚ) / (b : ℚ) + 1 / 2⌋ := by
  have hbq : ((b : ℚ)) ≠ 0 := by
    have : (0 : ℚ) < (b : ℚ) := by exact_mod_cast hb
    exact ne_of_gt this
  have hnat : (((2 * b).toNat : ℕ) : Int) = 2 * b := Int.toNat_of_nonneg (by omega)
  have hnatQ : (((2 * b).toNat : ℕ) : ℚ) = 2 * (b : ℚ) := by exact_mod_cast hnat
  calc jsRoundDiv a b
      = (2 * a + b) / (((2 * b).toNat : ℕ) : Int) := by rw [jsRoundDiv, hnat]
    _ = ⌊((2 * a + b : Int) : ℚ) / (((2 * b).toNat : ℕ) : ℚ)⌋ :=
        (Rat.floor_intCast_div_natCast (2 * a + b) (2 * b).toNat).symm
    _ = ⌊(a : ℚ) / (b : ℚ) + 1 / 2⌋ := by
        rw [hnatQ]
        congr 1
        push_cast
        field_simp
        ring

theorem easeDelta_eq_spec_formula (q : Int) :
    (easeDelta q : ℚ) =
      (1 / 10 - (5 - (q : ℚ)) * (8 / 100 + (5 - (q : ℚ)) * (2 / 100))) * 1000 := by
  rw [easeDelta]
  push_cast
  ring

theorem masteryPercentage_eq_floor (s : SRSState) :
    calculateMasteryPercentage s =
      ⌊min ((s.repetitions : ℚ) / 10) 1 * 50 +
        min (((s.easeFactor : ℚ) - 1300) / 1700) 1 * 50 + 1 / 2⌋ := by
  have h1 : min ((s.repetitions : ℚ) / 10) 1 * 50 = min (5 * (s.repetitions : ℚ)) 50 := by
    rw [min_mul_of_nonneg _ _ (by norm_num : (0:ℚ) ≤ 50)]
    congr 1 <;> ring
  have h2 : min (((s.easeFactor : ℚ) - 1300) / 1700) 1 * 50 =
      min (50 * ((s.easeFactor : ℚ) - 1300)) 85000 / 1700 := by
    rw [min_mul_of_nonneg _ _ (by norm_num : (0:ℚ) ≤ 50),
      ← min_div_div_right (by norm_num : (0:ℚ) ≤ 1700)]
    congr 1 <;> ring_nf
  simp only [calculateMasteryPercentage]
  rw [jsRoundDiv_eq_floor _ _ (by norm_num : (0:Int) < 1700)]
  congr 1
  push_cast [Int.cast_min]
  rw [h1, h2]
  ring

lemma ite_lt_eq_max (x c : Int) : (if x < c then c else x) = max x c := by
  rcases lt_or_le x c with h | h
  · rw [if_pos h, max_eq_right h.le]
  · rw [if_neg (not_lt.mpr h), max_eq_left h]

/-- Evaluated form of `calculateNextReview` on a successful review. -/
lemma calculateNextReview_eval_success (s : SRSState) (q now : Int)
    (hq3 : 3 ≤ q) (hq5 : q ≤ 5) :
    calculateNextReview s q now =
      Except.ok
        { interval :=
            if s.repetitions + 1 = 1 then 1
            else if s.repetitions + 1 = 2 then 3
            else jsRoundDiv (s.interval * max (s.easeFactor + easeDelta q) 1300) 1000
          easeFactor := max (s.easeFactor + easeDelta q) 1300
          repetitions := s.repetitions + 1
          nextReviewAt := now +
            (if s.repetitions + 1 = 1 then 1
             else if s.repetitions + 1 = 2 then 3
             else jsRoundDiv (s.interval * max (s.easeFactor + easeDelta q) 1300) 1000) *
              86400000 } := by
  have hcond : ¬(q < 0 ∨ q > 5) := by omega
  have h3 : ¬(q < 3) := by omega
  simp only [calculateNextReview, if_neg hcond, if_neg h3, ite_lt_eq_max]

/-- Evaluated form of `calculateNextReview` on a failed review. -/
lemma calculateNextReview_eval_failure (s : SRSState) (q now : Int)
    (hq0 : 0 ≤ q) (hq2 : q ≤ 2) :
    calculateNextReview s q now =
      Except.ok
        { interval := 1
          easeFactor := max (s.easeFactor + easeDelta q) 1300
          repetitions := 0
          nextReviewAt := now + 1 * 86400000 } := by
  have hcond : ¬(q < 0 ∨ q > 5) := by omega
  have h3 : q < 3 := by omega
  simp only [calculateNextReview, if_neg hcond, if_pos h3, ite_lt_eq_max]

/-- **C1**: for every state with `interval ≥ 1` and quality in `[3,5]`,
`calculateNextReview` increments `repetitions`, and the new interval is 1
when the new repetition count is 1, 3 when it is 2, and
`round(oldInterval * newEaseFactor / 1000)` otherwise, where
`newEaseFactor` is the ease factor after the SM-2 delta and the 1300
floor. -/
theorem calculateNextReview_success_spec (s : SRSState) (q now : Int)
    (hint : 1 ≤ s.interval) (hq3 : 3 ≤ q) (hq5 : q ≤ 5) :
    ∃ r, calculateNextReview s q now = Except.ok r ∧
      r.repetitions = s.repetitions + 1 ∧
      r.easeFactor = max (s.easeFactor + easeDelta q) 1300 ∧
      r.interval =
        (if s.repetitions + 1 = 1 then 1
         else if s.repetitions + 1 = 2 then 3
         else ⌊(s.interval : ℚ) * ((max (s.easeFactor + easeDelta q) 1300 : Int) : ℚ) / 1000
                + 1 / 2⌋) := by
  rw [calculateNextReview_eval_success s q now hq3 hq5]
  refine ⟨_, rfl, rfl, rfl, ?_⟩
  split_ifs
  · rfl
  · rfl
  · rw [jsRoundDiv_eq_floor _ _ (by norm_num : (0:Int) < 1000)]
    push_cast [Int.cast_max]
    ring_nf

/-- Witness for C1, at Scenario B of the spec:
`{interval:3, easeFactor:2500, repetitions:2}`, quality 5 gives
`repetitions=3`, `easeFactor=2600`, `interval=8`. -/
theorem calculateNextReview_success_witness :
    (∃ r, calculateNextReview ⟨3, 2500, 2, 0⟩ 5 0 = Except.ok r ∧
      r.repetitions = 2 + 1 ∧
      r.easeFactor = max (2500 + easeDelta 5) 1300 ∧
      r.interval =
        (if (2:Int) + 1 = 1 then 1
         else if (2:Int) + 1 = 2 then 3
         else ⌊(3 : ℚ) * ((max (2500 + easeDelta 5) 1300 : Int) : ℚ) / 1000 + 1 / 2⌋)) ∧
    calculateNextReview ⟨3, 2500, 2, 0⟩ 5 0 = Except.ok ⟨8, 2600, 3, 691200000⟩ :=
  ⟨calculateNextReview_success_spec ⟨3, 2500, 2, 0⟩ 5 0 (by norm_num) (by norm_num)
      (by norm_num), rfl⟩

/-- **C2**: for every state and quality in `[0,2]`, `calculateNextReview`
resets `repetitions` to 0 and `interval` to 1 regardless of prior state,
while the ease factor is still updated by the SM-2 delta
`(0.1 - (5-q)(0.08 + (5-q)·0.02))·1000` and floored at 1300. -/
theorem calculateNextReview_failure_spec (s : SRSState) (q now : Int)
    (hq0 : 0 ≤ q) (hq2 : q ≤ 2) :
    ∃ r, calculateNextReview s q now = Except.ok r ∧
      r.repetitions = 0 ∧ r.interval = 1 ∧
      (r.easeFactor : ℚ) =
        max ((s.easeFactor : ℚ) +
          (0.1 - (5 - (q : ℚ)) * (0.08 + (5 - (q : ℚ)) * 0.02)) * 1000) 1300 := by
  rw [calculateNextReview_eval_failure s q now hq0 hq2]
  refine ⟨_, rfl, rfl, rfl, ?_⟩
  push_cast [Int.cast_max]
  rw [easeDelta_eq_spec_formula]
  norm_num

/-- Witness for C2 at Scenario C of the spec:
`{repetitions:4, easeFactor:2100}`, quality 1: repetitions reset to 0,
interval reset to 1, ease factor drops by 540 to 1560. -/
theorem calculateNextReview_failure_witness :
    (∃ r, calculateNextReview ⟨3, 2100, 4, 0⟩ 1 0 = Except.ok r ∧
      r.repetitions = 0 ∧ r.interval = 1 ∧
      (r.easeFactor : ℚ) =
        max ((2100 : ℚ) + (0.1 - (5 - (1 : ℚ)) * (0.08 + (5 - (1 : ℚ)) * 0.02)) * 1000) 1300) ∧
    calculateNextReview ⟨3, 2100, 4, 0⟩ 1 0 = Except.ok ⟨1, 1560, 0, 86400000⟩ :=
  ⟨calculateNextReview_failure_spec ⟨3, 2100, 4, 0⟩ 1 0 (by norm_num) (by norm_num), rfl⟩

/-- **C7**: for every state with `repetitions ≥ 0` and `easeFactor ≥ 1300`,
`calculateMasteryPercentage` returns
`round(min(repetitions/10,1)*50 + min(max(easeFactor-1300,0)/1700,1)*50)`,
and the result lies in `[0,100]`. -/
theorem calculateMasteryPercentage_spec (s : SRSState)
    (hrep : 0 ≤ s.repetitions) (hef : 1300 ≤ s.easeFactor) :
    calculateMasteryPercentage s =
      ⌊min ((s.repetitions : ℚ) / 10) 1 * 50 +
        min (max ((s.easeFactor : ℚ) - 1300) 0 / 1700) 1 * 50 + 1 / 2⌋ ∧
    0 ≤ calculateMasteryPercentage s ∧ calculateMasteryPercentage s ≤ 100 := by
  have hefq : (0 : ℚ) ≤ (s.easeFactor : ℚ) - 1300 := by
    have : (1300 : ℚ) ≤ (s.easeFactor : ℚ) := by exact_mod_cast hef
    linarith
  refine ⟨?_, ?_, ?_⟩
  · rw [max_eq_left hefq]
    exact masteryPercentage_eq_floor s
  · simp only [calculateMasteryPercentage, jsRoundDiv]
    have h1 : 0 ≤ min (5 * s.repetitions) 50 := le_min (by omega) (by norm_num)
    have h2 : 0 ≤ min (50 * (s.easeFactor - 1300)) 85000 := le_min (by omega) (by norm_num)
    exact Int.ediv_nonneg (by omega) (by norm_num)
  · simp only [calculateMasteryPercentage, jsRoundDiv]
    have h1 : min (5 * s.repetitions) 50 ≤ 50 := min_le_right _ _
    have h2 : min (50 * (s.easeFactor - 1300)) 85000 ≤ 85000 := min_le_right _ _
    calc (2 * (1700 * min (5 * s.repetitions) 50 + min (50 * (s.easeFactor - 1300)) 85000)
            + 1700) / (2 * 1700)
        ≤ 341700 / (2 * 1700) := Int.ediv_le_ediv (by norm_num) (by omega)
      _ = 100 := by decide

/-- Witness for C7, at Scenario E of the spec:
`{repetitions:10, easeFactor:3000}` has mastery exactly 100. -/
theorem calculateMasteryPercentage_witness :
    (calculateMasteryPercentage ⟨1, 3000, 10, 0⟩ =
      ⌊min ((10 : ℚ) / 10) 1 * 50 + min (max ((3000 : ℚ) - 1300) 0 / 1700) 1 * 50 + 1 / 2⌋ ∧
     0 ≤ calculateMasteryPercentage ⟨1, 3000, 10, 0⟩ ∧
     calculateMasteryPercentage ⟨1, 3000, 10, 0⟩ ≤ 100) ∧
    calculateMasteryPercentage ⟨1, 3000, 10, 0⟩ = 100 :=
  ⟨calculateMasteryPercentage_spec ⟨1, 3000, 10, 0⟩ (by norm_num) (by norm_num), rfl⟩

/-- **C3**: every state returned by `calculateNextReview` has
`easeFactor ≥ 1300`, and every row the simplified record-answer path
writes (updated or freshly inserted — i.e. any row of the result that is
not a row of the input table) has `easeFactor ≥ 1300`, for both the
correct and the incorrect outcome. -/
theorem easeFactor_floor_invariant (s : SRSState) (q now : Int) (r : SRSState)
    (db : List ProgressRecord) (u p : String) (b : Bool) (t : Int) :
    (calculateNextReview s q now = Except.ok r → 1300 ≤ r.easeFactor) ∧
    (∀ r' ∈ recordAnswer db u p b t, r' ∈ db ∨ 1300 ≤ r'.easeFactor) := by
  constructor
  · intro h
    by_cases hq : q < 0 ∨ q > 5
    · simp [calculateNextReview, hq] at h
    · simp only [calculateNextReview, if_neg hq] at h
      injection h with h'
      rw [← h']
      simp only
      split_ifs <;> omega
  · intro r' hr'
    unfold recordAnswer at hr'
    cases hfp : findProgressByUserPhrase db u p with
    | none =>
      rw [hfp] at hr'
      simp only [List.mem_append, List.mem_singleton] at hr'
      rcases hr' with h | h
      · exact Or.inl h
      · right
        rw [h]
        cases b <;> norm_num
    | some p0 =>
      rw [hfp] at hr'
      simp only [List.mem_map] at hr'
      obtain ⟨q0, hq0, heq⟩ := hr'
      by_cases hid : q0.id == p0.id
      · right
        rw [← heq]
        simp only [hid, if_true]
        cases b <;> simp
      · left
        rw [← heq]
        simp only [hid]
        simpa using hq0

/-- Witness for C3: quality 1 from `easeFactor = 2100` lands at 1560 ≥ 1300,
and a first-ever incorrect answer writes a row with `easeFactor = 1300`. -/
theorem easeFactor_floor_invariant_witness :
    calculateNextReview ⟨3, 2100, 4, 0⟩ 1 0 = Except.ok ⟨1, 1560, 0, 86400000⟩ ∧
    (1300 : Int) ≤ (⟨1, 1560, 0, 86400000⟩ : SRSState).easeFactor ∧
    (∀ r' ∈ recordAnswer [] "u" "w" false 0,
      r' ∈ ([] : List ProgressRecord) ∨ 1300 ≤ r'.easeFactor) :=
  ⟨rfl,
   (easeFactor_floor_invariant ⟨3, 2100, 4, 0⟩ 1 0 ⟨1, 1560, 0, 86400000⟩ [] "u" "w" false 0).1
     rfl,
   (easeFactor_floor_invariant ⟨3, 2100, 4, 0⟩ 1 0 ⟨1, 1560, 0, 86400000⟩ [] "u" "w" false 0).2⟩

/-- **C4** (failing input): `getWordsForReview` orders by `nextReviewAt`
descending, so with two due rows the later-due (least overdue) row comes
first — the opposite of the most-overdue-first ascending order the claim
and the spec's intent state. -/
theorem getWordsForReview_orders_descending :
    getWordsForReview [duePr1, duePr2] "u" 10 = [duePr2, duePr1] ∧
    duePr1.nextReviewAt < duePr2.nextReviewAt := by
  constructor
  · simp [getWordsForReview, duePr1, duePr2, List.mergeSort]
  · decide

/-- **C9**: `calculateNextReview` succeeds iff the quality is in `[0,5]`,
and on an out-of-range quality `submitReview` leaves the progress table
untouched (the error is thrown before the store write). -/
theorem invalid_quality_rejected_before_write (s : SRSState) (q now : Int)
    (db : List ProgressRecord) (userId progressId : String) :
    (exceptIsOk (calculateNextReview s q now) = true ↔ 0 ≤ q ∧ q ≤ 5) ∧
    ((q < 0 ∨ 5 < q) → (submitReview db userId progressId q now).1 = db) := by
  constructor
  · by_cases hq : q < 0 ∨ q > 5
    · simp only [calculateNextReview, if_pos hq, exceptIsOk]
      constructor
      · intro h
        exact absurd h (by norm_num)
      · intro h
        omega
    · simp only [calculateNextReview, if_neg hq, exceptIsOk]
      constructor
      · intro _
        omega
      · intro _
        trivial
  · intro hq
    cases hf : db.find? fun p => p.id == progressId && p.userId == userId with
    | none => simp [submitReview, hf]
    | some p =>
      have hq' : q < 0 ∨ q > 5 := by omega
      simp [submitReview, hf, calculateNextReview, if_pos hq']

/-- Witness for C9 at quality 7: the scheduler rejects it and the table
with one row is unchanged. -/
theorem invalid_quality_rejected_witness :
    (exceptIsOk (calculateNextReview ⟨1, 2500, 0, 0⟩ 7 0) = true ↔ 0 ≤ (7:Int) ∧ (7:Int) ≤ 5) ∧
    (submitReview [duePr1] "u" "p1" 7 0).1 = [duePr1] :=
  ⟨(invalid_quality_rejected_before_write ⟨1, 2500, 0, 0⟩ 7 0 [duePr1] "u" "p1").1,
   (invalid_quality_rejected_before_write ⟨1, 2500, 0, 0⟩ 7 0 [duePr1] "u" "p1").2
     (by norm_num)⟩

/-- **C10**: when the record-answer path finds no progress record it inserts
one with `interval = 1` and `nextReviewAt = now + 1 day` in both outcomes,
with `{repetitions:1, easeFactor:2500, status:learning}` on a correct and
`{repetitions:0, easeFactor:1300, status:new}` on an incorrect answer. -/
theorem recordAnswer_new_record_spec (db : List ProgressRecord) (u p : String)
    (b : Bool) (t : Int) (h : findProgressByUserPhrase db u p = none) :
    ∃ r, recordAnswer db u p b t = db ++ [r] ∧ r.userId = u ∧ r.phraseId = p ∧
      r.interval = 1 ∧ r.nextReviewAt = t + 86400000 ∧
      (b = true → r.repetitions = 1 ∧ r.easeFactor = 2500 ∧ r.status = WordStatus.learning) ∧
      (b = false → r.repetitions = 0 ∧ r.easeFactor = 1300 ∧ r.status = WordStatus.new) := by
  unfold recordAnswer
  rw [h]
  refine ⟨_, rfl, rfl, rfl, rfl, by simp, ?_, ?_⟩
  · intro hb
    subst hb
    simp
  · intro hb
    subst hb
    simp

/-- Witness for C10: first-ever answer on an empty table, both outcomes. -/
theorem recordAnswer_new_record_witness :
    (∃ r, recordAnswer [] "u" "w" true 0 = [] ++ [r] ∧ r.userId = "u" ∧ r.phraseId = "w" ∧
      r.interval = 1 ∧ r.nextReviewAt = 0 + 86400000 ∧
      (true = true → r.repetitions = 1 ∧ r.easeFactor = 2500 ∧ r.status = WordStatus.learning) ∧
      (true = false → r.repetitions = 0 ∧ r.easeFactor = 1300 ∧ r.status = WordStatus.new)) ∧
    (∃ r, recordAnswer [] "u" "w" false 0 = [] ++ [r] ∧ r.userId = "u" ∧ r.phraseId = "w" ∧
      r.interval = 1 ∧ r.nextReviewAt = 0 + 86400000 ∧
      (false = true → r.repetitions = 1 ∧ r.easeFactor = 2500 ∧ r.status = WordStatus.learning) ∧
      (false = false → r.repetitions = 0 ∧ r.easeFactor = 1300 ∧ r.status = WordStatus.new)) :=
  ⟨recordAnswer_new_record_spec [] "u" "w" true 0 rfl,
   recordAnswer_new_record_spec [] "u" "w" false 0 rfl⟩

lemma countTasksFor_scheduleStep (u p : String) (now : Int) (acc : SchedulerDb)
    (d : Int) (ty : TaskType) (u' p' : String) (ty' : TaskType) :
    countTasksFor (scheduleStep u p now acc (d, ty)).tasks u' p' ty' =
      if u' = u ∧ p' = p ∧ ty' = ty then max (countTasksFor acc.tasks u' p' ty') 1
      else countTasksFor acc.tasks u' p' ty' := by
  simp only [scheduleStep]
  by_cases hex : (acc.tasks.any fun t =>
      t.userId == u && t.phraseId == p && t.taskType == ty) = true
  · rw [if_pos hex]
    by_cases hkey : u' = u ∧ p' = p ∧ ty' = ty
    · obtain ⟨rfl, rfl, rfl⟩ := hkey
      rw [if_pos ⟨rfl, rfl, rfl⟩]
      have hpos : 0 < countTasksFor acc.tasks u' p' ty' := by
        rw [countTasksFor, List.countP_pos_iff]
        rw [List.any_eq_true] at hex
        exact hex
      exact (Nat.max_eq_left hpos).symm
    · rw [if_neg hkey]
  · rw [if_neg hex]
    by_cases hkey : u' = u ∧ p' = p ∧ ty' = ty
    · obtain ⟨rfl, rfl, rfl⟩ := hkey
      rw [if_pos ⟨rfl, rfl, rfl⟩]
      have hzero : countTasksFor acc.tasks u' p' ty' = 0 := by
        rw [countTasksFor, List.countP_eq_zero]
        intro t ht hp
        exact hex (List.any_eq_true.mpr ⟨t, ht, hp⟩)
      rw [countTasksFor, List.countP_append, ← countTasksFor, hzero]
      simp [countTasksFor, List.countP_cons]
    · rw [if_neg hkey]
      rw [countTasksFor, List.countP_append, ← countTasksFor]
      have hone : List.countP
          (fun t => t.userId == u' && t.phraseId == p' && t.taskType == ty')
          [({ id := "task_sched", userId := u, phraseId := p,
              scheduledDate := now + d * 86400000, taskType := ty,
              daysFromLearning := d } : DailyTask)] = 0 := by
        simp only [List.countP_cons, List.countP_nil]
        rw [if_neg]
        simp only [Bool.and_eq_true, beq_iff_eq]
        intro hcon
        exact hkey ⟨hcon.1.1.symm, hcon.1.2.symm, hcon.2.symm⟩
      rw [hone]
      omega

lemma countTasksFor_scheduleNextReviews (db : SchedulerDb) (u p : String) (now : Int)
    (u' p' : String) (ty' : TaskType) :
    countTasksFor (scheduleNextReviews db u p now).tasks u' p' ty' =
      if u' = u ∧ p' = p ∧ ty' ∈ reviewTaskTypes
      then max (countTasksFor db.tasks u' p' ty') 1
      else countTasksFor db.tasks u' p' ty' := by
  simp only [scheduleNextReviews, reviewSchedules, List.foldl,
    countTasksFor_scheduleStep]
  by_cases hu : u' = u
  · by_cases hp : p' = p
    · cases ty' <;> simp [hu, hp, reviewTaskTypes]
    · cases ty' <;> simp [hu, hp, reviewTaskTypes]
  · cases ty' <;> simp [hu, reviewTaskTypes]

lemma countTasksFor_map_markCompleted (ts : List DailyTask) (tid : String)
    (b : Bool) (tsp now : Int) (u' p' : String) (ty' : TaskType) :
    countTasksFor (ts.map (markCompleted tid b tsp now)) u' p' ty' =
      countTasksFor ts u' p' ty' := by
  rw [countTasksFor, countTasksFor, List.countP_map]
  apply List.countP_congr
  intro t _
  simp only [Function.comp, markCompleted]
  by_cases h : t.id == tid <;> simp [h]

lemma progress_scheduleNextReviews (db : SchedulerDb) (u p : String) (now : Int) :
    (scheduleNextReviews db u p now).progress = db.progress := by
  simp only [scheduleNextReviews, reviewSchedules, List.foldl]
  repeat rw [scheduleStep]
  repeat' split_ifs <;> rfl

lemma countTasksFor_completeDailyTask_correct (db : SchedulerDb)
    (u tid p : String) (tsp now : Int) (u' p' : String) (ty' : TaskType) :
    countTasksFor (completeDailyTask db u tid p true tsp now).tasks u' p' ty' =
      if u' = u ∧ p' = p ∧ ty' ∈ reviewTaskTypes
      then max (countTasksFor db.tasks u' p' ty') 1
      else countTasksFor db.tasks u' p' ty' := by
  simp only [completeDailyTask, if_pos]
  cases hfp : findProgressByUserPhrase (db.tasks.map
      (markCompleted tid true tsp now), db.progress).2 u p with
  | none =>
    simp only [hfp]
    rw [countTasksFor_scheduleNextReviews]
    simp only [countTasksFor_map_markCompleted]
  | some p0 =>
    simp only [hfp]
    rw [countTasksFor_scheduleNextReviews]
    simp only [countTasksFor_map_markCompleted]

lemma countTasksFor_completeCorrectCalls (db : SchedulerDb) (u p : String)
    (calls : List (String × Int × Int)) (hcalls : calls ≠ [])
    (u' p' : String) (ty' : TaskType) :
    countTasksFor (completeCorrectCalls db u p calls).tasks u' p' ty' =
      if u' = u ∧ p' = p ∧ ty' ∈ reviewTaskTypes
      then max (countTasksFor db.tasks u' p' ty') 1
      else countTasksFor db.tasks u' p' ty' := by
  induction calls generalizing db with
  | nil => exact absurd rfl hcalls
  | cons c cs ih =>
    rw [completeCorrectCalls, List.foldl_cons]
    cases cs with
    | nil =>
      rw [List.foldl_nil]
      exact countTasksFor_completeDailyTask_correct db u c.1 p c.2.1 c.2.2 u' p' ty'
    | cons c2 cs2 =>
      rw [← completeCorrectCalls, ih (completeDailyTask db u c.1 p true c.2.1 c.2.2)
        (by simp)]
      rw [countTasksFor_completeDailyTask_correct]
      by_cases hkey : u' = u ∧ p' = p ∧ ty' ∈ reviewTaskTypes
      · simp only [if_pos hkey]
        rw [max_assoc, max_self]
      · simp only [if_neg hkey]

/-- **C5**: starting from a table with at most one task row per
`(userId, phraseId, taskType)`, any positive number of correct
`completeTask` calls for one `(user, item)` leaves at most one row per key
and exactly one row of each of the five checkpoint types
`review_1/review_3/review_10/review_21/review_50` for that item — repeated
calls create no duplicate checkpoints. -/
theorem completeTask_checkpoints_idempotent (db : SchedulerDb) (u p : String)
    (calls : List (String × Int × Int)) (hcalls : calls ≠ [])
    (huniq : ∀ u' p' ty', countTasksFor db.tasks u' p' ty' ≤ 1) :
    (∀ u' p' ty', countTasksFor (completeCorrectCalls db u p calls).tasks u' p' ty' ≤ 1) ∧
    (∀ ty ∈ reviewTaskTypes,
      countTasksFor (completeCorrectCalls db u p calls).tasks u p ty = 1) := by
  constructor
  · intro u' p' ty'
    rw [countTasksFor_completeCorrectCalls db u p calls hcalls]
    split_ifs
    · exact max_le (huniq u' p' ty') le_rfl
    · exact huniq u' p' ty'
  · intro ty hty
    rw [countTasksFor_completeCorrectCalls db u p calls hcalls,
      if_pos ⟨rfl, rfl, hty⟩]
    exact Nat.max_eq_right (huniq u p ty)

/-- Witness for C5: two successive correct completions on an initially empty
task table create exactly one `review_1` and one `review_50` checkpoint. -/
theorem completeTask_checkpoints_witness :
    countTasksFor (completeCorrectCalls ⟨[], []⟩ "u" "w"
      [("t1", 10, 0), ("t1", 10, 5)]).tasks "u" "w" TaskType.review_1 = 1 ∧
    countTasksFor (completeCorrectCalls ⟨[], []⟩ "u" "w"
      [("t1", 10, 0), ("t1", 10, 5)]).tasks "u" "w" TaskType.review_50 = 1 :=
  ⟨(completeTask_checkpoints_idempotent ⟨[], []⟩ "u" "w" [("t1", 10, 0), ("t1", 10, 5)]
      (by simp) (fun u' p' ty' => by simp [countTasksFor])).2
    TaskType.review_1 (by simp [reviewTaskTypes]),
   (completeTask_checkpoints_idempotent ⟨[], []⟩ "u" "w" [("t1", 10, 0), ("t1", 10, 5)]
      (by simp) (fun u' p' ty' => by simp [countTasksFor])).2
    TaskType.review_50 (by simp [reviewTaskTypes])⟩

lemma find?_map_of_pred_eq {α : Type} (l : List α) (pred : α → Bool) (g : α → α)
    (hg : ∀ q, pred (g q) = pred q) (r : α) (h : List.find? pred l = some r) :
    List.find? pred (l.map g) = some (g r) := by
  induction l with
  | nil => simp at h
  | cons x xs ih =>
    by_cases hx : pred x
    · rw [List.find?_cons_of_pos _ hx] at h
      rw [List.map_cons, List.find?_cons_of_pos _ (by rw [hg]; exact hx)]
      injection h with h'
      rw [h']
    · rw [List.find?_cons_of_neg _ hx] at h
      rw [List.map_cons, List.find?_cons_of_neg _ (by rw [hg]; exact hx)]
      exact ih h

/-- **C6**: when a progress record exists, `completeDailyTask` bumps exactly
one outcome counter, increments `repetitions`, sets `lastReviewedAt`, and
leaves `interval`, `easeFactor`, `nextReviewAt` and `status` unchanged — it
does not recompute the SM-2 schedule. -/
theorem completeTask_counter_frame (db : SchedulerDb) (u tid p : String) (b : Bool)
    (tsp now : Int) (r : ProgressRecord)
    (h : findProgressByUserPhrase db.progress u p = some r) :
    ∃ r', findProgressByUserPhrase
        (completeDailyTask db u tid p b tsp now).progress u p = some r' ∧
      r'.correctCount = r.correctCount + (if b then 1 else 0) ∧
      r'.incorrectCount = r.incorrectCount + (if b then 0 else 1) ∧
      r'.repetitions = r.repetitions + 1 ∧
      r'.lastReviewedAt = some now ∧
      r'.interval = r.interval ∧ r'.easeFactor = r.easeFactor ∧
      r'.nextReviewAt = r.nextReviewAt ∧ r'.status = r.status := by
  rw [findProgressByUserPhrase] at h
  simp only [completeDailyTask, findProgressByUserPhrase, h]
  cases b
  · rw [if_neg (by simp : ¬(false = true))]
    refine ⟨_, find?_map_of_pred_eq db.progress _ _ ?_ r h, ?_, ?_, ?_, ?_, ?_, ?_, ?_, ?_⟩
    · intro q
      by_cases hid : q.id == r.id <;> simp [hid]
    all_goals simp
  · rw [if_pos rfl]
    rw [progress_scheduleNextReviews]
    refine ⟨_, find?_map_of_pred_eq db.progress _ _ ?_ r h, ?_, ?_, ?_, ?_, ?_, ?_, ?_, ?_⟩
    · intro q
      by_cases hid : q.id == r.id <;> simp [hid]
    all_goals simp

/-- Witness for C6: a correct completion on a one-row progress table. -/
theorem completeTask_counter_frame_witness :
    ∃ r', findProgressByUserPhrase
        (completeDailyTask ⟨[], [exProgress6]⟩ "u" "t1" "w" true 10 99).progress
          "u" "w" = some r' ∧
      r'.correctCount = exProgress6.correctCount + (if true then 1 else 0) ∧
      r'.incorrectCount = exProgress6.incorrectCount + (if true then 0 else 1) ∧
      r'.repetitions = exProgress6.repetitions + 1 ∧
      r'.lastReviewedAt = some 99 ∧
      r'.interval = exProgress6.interval ∧ r'.easeFactor = exProgress6.easeFactor ∧
      r'.nextReviewAt = exProgress6.nextReviewAt ∧ r'.status = exProgress6.status :=
  completeTask_counter_frame ⟨[], [exProgress6]⟩ "u" "t1" "w" true 10 99 exProgress6 rfl

/-- **C8** (counterexample): with one 60-phrase session in the window the
recomputation persists `avgPhrasesPerDay = 2` but leaves the pre-existing
`optimalDailyLoad = 20` untouched — the update branch never writes
`optimalDailyLoad`, contradicting the claim that
`optimalDailyLoad = avgPhrasesPerDay` is persisted. -/
theorem updateLearningAnalytics_optimalDailyLoad_stale :
    ((updateLearningAnalytics exDb8 "u" 0).analytics.map fun a =>
      (a.avgPhrasesPerDay, a.optimalDailyLoad)) = [(2, 20)] ∧ (2 : Int) ≠ 20 := by
  constructor <;> decide

lemma find?_append_of_none {α : Type} (l1 l2 : List α) (p : α → Bool)
    (h : List.find? p l1 = none) : List.find? p (l1 ++ l2) = List.find? p l2 := by
  rw [List.find?_append, h, Option.none_or]

/-- **C8** (amended): on a nonempty 30-day window the recomputation persists
`avgPhrasesPerDay = round(totalPhrasesStudied/30)` and the slow/normal/fast
pace classification for the user's analytics row, but `optimalDailyLoad` is
set to `avgPhrasesPerDay` only when no analytics row existed; an existing
row keeps its stored `optimalDailyLoad`.  With an empty window nothing is
written. -/
theorem updateLearningAnalytics_amended (db : AnalyticsDb) (u : String) (now : Int) :
    (windowSessions db u now = [] → updateLearningAnalytics db u now = db) ∧
    (windowSessions db u now ≠ [] →
      ∃ a', ((updateLearningAnalytics db u now).analytics.find? fun x => x.userId == u) =
          some a' ∧
        a'.avgPhrasesPerDay =
          jsRoundDiv ((windowSessions db u now).map fun s => s.phrasesStudied).sum 30 ∧
        (a'.avgPhrasesPerDay < 15 → a'.learningPace = LearningPace.slow) ∧
        (30 < a'.avgPhrasesPerDay → a'.learningPace = LearningPace.fast) ∧
        (15 ≤ a'.avgPhrasesPerDay → a'.avgPhrasesPerDay ≤ 30 →
          a'.learningPace = LearningPace.normal) ∧
        a'.optimalDailyLoad =
          ((db.analytics.find? fun x => x.userId == u).map fun a =>
            a.optimalDailyLoad).getD
            (jsRoundDiv ((windowSessions db u now).map fun s => s.phrasesStudied).sum 30)) := by
  constructor
  · intro h
    simp only [updateLearningAnalytics, if_pos h]
  · intro h
    by_cases hex : (db.analytics.any fun a => a.userId == u) = true
    · obtain ⟨a0, ha0⟩ : ∃ a0, db.analytics.find? (fun x => x.userId == u) = some a0 := by
        have hs : (db.analytics.find? fun x => x.userId == u).isSome := by
          rw [List.find?_isSome]
          exact List.any_eq_true.mp hex
        exact Option.isSome_iff_exists.mp hs
      have hpa0 : (a0.userId == u) = true := by
        have hp := List.find?_some ha0
        simpa using hp
      simp only [updateLearningAnalytics, if_neg h, if_pos hex]
      refine ⟨_, find?_map_of_pred_eq db.analytics _ _ ?_ a0 ha0, ?_, ?_, ?_, ?_, ?_⟩
      · intro q
        by_cases hq : q.userId == u <;> simp [hq]
      · simp [hpa0]
      · intro hlt
        simp only [hpa0, if_true] at hlt ⊢
        split_ifs at hlt ⊢ <;> first | rfl | omega
      · intro hgt
        simp only [hpa0, if_true] at hgt ⊢
        split_ifs at hgt ⊢ <;> first | rfl | omega
      · intro hge hle
        simp only [hpa0, if_true] at hge hle ⊢
        split_ifs at hge hle ⊢ <;> first | rfl | omega
      · rw [ha0]
        simp [hpa0]
    · have hnone : db.analytics.find? (fun x => x.userId == u) = none := by
        rw [List.find?_eq_none]
        intro x hx hpx
        exact hex (List.any_eq_true.mpr ⟨x, hx, hpx⟩)
      simp only [updateLearningAnalytics, if_neg h, if_neg hex]
      rw [find?_append_of_none _ _ _ hnone]
      rw [List.find?_cons_of_pos _ (by simp)]
      refine ⟨_, rfl, rfl, ?_, ?_, ?_, ?_⟩
      · intro hlt
        simp only at hlt ⊢
        split_ifs at hlt ⊢ <;> first | rfl | omega
      · intro hgt
        simp only at hgt ⊢
        split_ifs at hgt ⊢ <;> first | rfl | omega
      · intro hge hle
        simp only at hge hle ⊢
        split_ifs at hge hle ⊢ <;> first | rfl | omega
      · rw [hnone]
        rfl

/-- Witness for the amended C8: an empty window leaves the database
unchanged, and with the 60-phrase session the persisted row has
`avgPhrasesPerDay = round(60/30) = 2` while the stored
`optimalDailyLoad = 20` survives. -/
theorem updateLearningAnalytics_amended_witness :
    updateLearningAnalytics ⟨[], []⟩ "u" 0 = (⟨[], []⟩ : AnalyticsDb) ∧
    (∃ a', ((updateLearningAnalytics exDb8 "u" 0).analytics.find? fun x =>
        x.userId == "u") = some a' ∧
      a'.avgPhrasesPerDay =
        jsRoundDiv ((windowSessions exDb8 "u" 0).map fun s => s.phrasesStudied).sum 30 ∧
      (a'.avgPhrasesPerDay < 15 → a'.learningPace = LearningPace.slow) ∧
      (30 < a'.avgPhrasesPerDay → a'.learningPace = LearningPace.fast) ∧
      (15 ≤ a'.avgPhrasesPerDay → a'.avgPhrasesPerDay ≤ 30 →
        a'.learningPace = LearningPace.normal) ∧
      a'.optimalDailyLoad =
        ((exDb8.analytics.find? fun x => x.userId == "u").map fun a =>
          a.optimalDailyLoad).getD
          (jsRoundDiv ((windowSessions exDb8 "u" 0).map fun s => s.phrasesStudied).sum 30)) :=
  ⟨(updateLearningAnalytics_amended ⟨[], []⟩ "u" 0).1 (by decide),
   (updateLearningAnalytics_amended exDb8 "u" 0).2 (by decide)⟩

end GermanPhraseGame
